import Mathlib

/-!
Verification of the mlfs-book per-sensor ingestion pipeline.

The embedding models the Python sources under `scripts/`:
  * `1_feat_back_param.py`  (parameterized backfill: `slugify`, `save_secret`,
    expectation suites, `process_sensor`, `main`)
  * `1_feature_backfill.py` (single-sensor backfill with fixed collection names)
  * `2_feature_pipeline.py` (incremental daily flow: noon-window weather sampling,
    `get_sensor_rows`, `main`)

Python strings are represented as lists of Unicode codepoints (`List Nat`).
The character classes (`\w`, `\s`) and `str.lower` are Unicode-aware in Python;
they are embedded exactly for the whole Latin-1 range (codepoints below 256),
which covers the data the scripts handle and in particular the accented
letters, `ß` and the no-break space that distinguish the Unicode behaviour
from an ASCII one.  Codepoints of 256 and above are treated as non-word,
non-space, lowering-fixed characters.
-/

namespace Mlfs

/-- Codepoint list of a Lean string literal, used to write concrete Python strings. -/
def codes (s : String) : List Nat := s.toList.map Char.toNat

/-- Python `str.strip` / regex `\s` whitespace, exact for codepoints below
256 (`str.isspace` and the `re` module agree on this set): tab through
carriage return (9–13), the file/group/record/unit separators (28–31), space
(32), next line (133) and no-break space (160). -/
def isPySpace (c : Nat) : Bool :=
  (9 ≤ c && c ≤ 13) || (28 ≤ c && c ≤ 31) || c = 32 || c = 133 || c = 160

/-- Regex `\w` (Unicode word character: alphanumeric or underscore), exact for
codepoints below 256: digits, ASCII letters, underscore (95), the ordinal
indicators ª (170) and º (186), the micro sign µ (181), the numeric characters
² ³ ¹ ¼ ½ ¾ (178, 179, 185, 188–190), and the Latin-1 letters 192–214,
216–246, 248–255 (the two operators × 215 and ÷ 247 are excluded). -/
def isWordChar (c : Nat) : Bool :=
  (48 ≤ c && c ≤ 57) || (65 ≤ c && c ≤ 90) || c = 95 || (97 ≤ c && c ≤ 122) ||
    c = 170 || c = 178 || c = 179 || c = 181 || c = 185 || c = 186 ||
    (188 ≤ c && c ≤ 190) || (192 ≤ c && c ≤ 214) || (216 ≤ c && c ≤ 246) ||
    (248 ≤ c && c ≤ 255)

/-- Python `str.lower`, exact for codepoints below 256: the upper-case letters
A–Z (65–90), À–Ö (192–214) and Ø–Þ (216–222) move down by 32; every other
Latin-1 character — in particular ß (223), µ (181) and ÿ (255) — is fixed. -/
def pyLower (c : Nat) : Nat :=
  if (65 ≤ c && c ≤ 90) || (192 ≤ c && c ≤ 214) || (216 ≤ c && c ≤ 222) then
    c + 32
  else c

/-- `text.strip()`: drop leading and trailing whitespace. -/
def pyStrip (s : List Nat) : List Nat :=
  ((s.dropWhile isPySpace).reverse.dropWhile isPySpace).reverse

/-- Character kept by `re.sub(r"[^\w\s-]", "", text)`: word char, whitespace, or hyphen (45). -/
def keepChar (c : Nat) : Bool :=
  isWordChar c || isPySpace c || c = 45

/-- Character matched by regex class `[\s-]`. -/
def isSpaceOrHyphen (c : Nat) : Bool :=
  isPySpace c || c = 45

/-- `re.sub(r"[\s-]+", "_", text)`: replace each maximal run of whitespace/hyphens
with a single underscore.  The boolean flag records whether the previous character
was part of such a run. -/
def collapseRuns : Bool → List Nat → List Nat
  | _, [] => []
  | inRun, c :: rest =>
    if isSpaceOrHyphen c then
      if inRun then collapseRuns true rest
      else 95 :: collapseRuns true rest
    else c :: collapseRuns false rest

/-- `slugify` from `1_feat_back_param.py` lines 43–47 (identical in
`2_feature_pipeline.py` lines 43–47):
```
text = text.strip().lower()
text = re.sub(r"[^\w\s-]", "", text)
text = re.sub(r"[\s-]+", "_", text)
```
-/
def slugify (text : List Nat) : List Nat :=
  collapseRuns false (((pyStrip text).map pyLower).filter keepChar)

/-- A character admitted by the regular expression `^[a-z0-9_]*$` that the
spec claims for `slugify` output: lower-case ASCII letter, digit, underscore. -/
def isSlugOutputChar (c : Nat) : Bool :=
  (97 ≤ c && c ≤ 122) || (48 ≤ c && c ≤ 57) || c = 95

/-- A character that can actually appear in `slugify` output: a word character
fixed by lowering.  (The underscore inserted by run-collapsing is one.)
Non-ASCII examples: é (233), ß (223), ü (252). -/
def isLowerWordChar (c : Nat) : Bool :=
  isWordChar c && decide (pyLower c = c)

lemma dropWhile_eq_self_of_none {p : Nat → Bool} {l : List Nat}
    (h : ∀ c ∈ l, p c = false) : l.dropWhile p = l := by
  cases l with
  | nil => rfl
  | cons a t => simp [List.dropWhile, h a (by simp)]

lemma map_eq_self_of_fixed {f : Nat → Nat} {l : List Nat}
    (h : ∀ c ∈ l, f c = c) : l.map f = l := by
  induction l with
  | nil => rfl
  | cons a t ih =>
    simp only [List.map_cons, h a (by simp)]
    rw [ih (fun c hc => h c (by simp [hc]))]

lemma filter_eq_self_of_all {p : Nat → Bool} {l : List Nat}
    (h : ∀ c ∈ l, p c = true) : l.filter p = l := by
  induction l with
  | nil => rfl
  | cons a t ih =>
    simp only [List.filter_cons, h a (by simp), if_true]
    rw [ih (fun c hc => h c (by simp [hc]))]

lemma collapseRuns_eq_self_of_none {l : List Nat}
    (h : ∀ c ∈ l, isSpaceOrHyphen c = false) : ∀ b, collapseRuns b l = l := by
  induction l with
  | nil => intro b; rfl
  | cons a t ih =>
    intro b
    simp [collapseRuns, h a (by simp), ih (fun c hc => h c (by simp [hc]))]

/-- Every character emitted by `collapseRuns` is an underscore or a
non-run character of the input. -/
lemma mem_collapseRuns {c : Nat} :
    ∀ {l : List Nat} {b : Bool}, c ∈ collapseRuns b l →
      c = 95 ∨ (c ∈ l ∧ isSpaceOrHyphen c = false) := by
  intro l
  induction l with
  | nil => intro b h; simp [collapseRuns] at h
  | cons a t ih =>
    intro b h
    by_cases ha : isSpaceOrHyphen a = true
    · simp only [collapseRuns, ha, if_true] at h
      cases b with
      | true =>
        rcases ih h with h95 | ⟨hm, hns⟩
        · exact Or.inl h95
        · exact Or.inr ⟨by simp [hm], hns⟩
      | false =>
        rcases List.mem_cons.mp h with h95 | htail
        · exact Or.inl h95
        · rcases ih htail with h95 | ⟨hm, hns⟩
          · exact Or.inl h95
          · exact Or.inr ⟨by simp [hm], hns⟩
    · have ha' : isSpaceOrHyphen a = false := by
        cases hh : isSpaceOrHyphen a with
        | false => rfl
        | true => exact absurd hh ha
      simp only [collapseRuns, ha', Bool.false_eq_true, if_false] at h
      rcases List.mem_cons.mp h with rfl | htail
      · exact Or.inr ⟨by simp, ha'⟩
      · rcases ih htail with h95 | ⟨hm, hns⟩
        · exact Or.inl h95
        · exact Or.inr ⟨by simp [hm], hns⟩

/-- `pyLower` is idempotent: the images of the three upper-case ranges lie
outside every upper-case range. -/
lemma pyLower_pyLower (a : Nat) : pyLower (pyLower a) = pyLower a := by
  unfold pyLower
  by_cases h : ((65 ≤ a && a ≤ 90) || (192 ≤ a && a ≤ 214) ||
      (216 ≤ a && a ≤ 222)) = true
  · have h' := h
    simp only [Bool.or_eq_true, Bool.and_eq_true, decide_eq_true_eq] at h'
    rw [if_pos h, if_neg]
    simp only [Bool.or_eq_true, Bool.and_eq_true, decide_eq_true_eq]
    omega
  · rw [if_neg h, if_neg h]

/-- Every character of a `slugify` output is a word character fixed by
lowering. -/
lemma slugify_output_chars {t : List Nat} :
    ∀ c ∈ slugify t, isLowerWordChar c = true := by
  intro c hc
  unfold slugify at hc
  rcases mem_collapseRuns hc with rfl | ⟨hm, hns⟩
  · decide
  · rcases List.mem_filter.mp hm with ⟨hmap, hkeep⟩
    rcases List.mem_map.mp hmap with ⟨a, _, rfl⟩
    simp only [keepChar, Bool.or_eq_true, decide_eq_true_eq] at hkeep
    simp only [isSpaceOrHyphen, Bool.or_eq_false_iff,
      decide_eq_false_iff_not] at hns
    simp only [isLowerWordChar, Bool.and_eq_true, decide_eq_true_eq]
    refine ⟨?_, pyLower_pyLower a⟩
    rcases hkeep with (hw | hs) | h45
    · exact hw
    · simp [hns.1] at hs
    · exact absurd h45 hns.2

/-- A word character fixed by lowering is untouched by every stage of
`slugify`: it is no whitespace, no hyphen, and `keepChar` keeps it. -/
lemma slug_char_facts {c : Nat} (h : isLowerWordChar c = true) :
    isPySpace c = false ∧ pyLower c = c ∧ keepChar c = true ∧
      isSpaceOrHyphen c = false := by
  simp only [isLowerWordChar, Bool.and_eq_true, decide_eq_true_eq] at h
  obtain ⟨hw, hl⟩ := h
  have hw' := hw
  simp only [isWordChar, Bool.or_eq_true, Bool.and_eq_true,
    decide_eq_true_eq] at hw'
  refine ⟨?_, hl, ?_, ?_⟩
  · cases hsp : isPySpace c with
    | false => rfl
    | true =>
      exfalso
      simp only [isPySpace, Bool.or_eq_true, Bool.and_eq_true,
        decide_eq_true_eq] at hsp
      omega
  · simp only [keepChar, hw, Bool.true_or]
  · cases hsh : isSpaceOrHyphen c with
    | false => rfl
    | true =>
      exfalso
      simp only [isSpaceOrHyphen, isPySpace, Bool.or_eq_true, Bool.and_eq_true,
        decide_eq_true_eq] at hsh
      omega

/-- Applying `slugify` to a string of word characters fixed by lowering
changes nothing. -/
lemma slugify_fixed_of_slug_chars {s : List Nat}
    (h : ∀ c ∈ s, isLowerWordChar c = true) : slugify s = s := by
  have hstrip : pyStrip s = s := by
    unfold pyStrip
    rw [dropWhile_eq_self_of_none (fun c hc => (slug_char_facts (h c hc)).1),
      dropWhile_eq_self_of_none
        (fun c hc => (slug_char_facts (h c (List.mem_reverse.mp hc))).1),
      List.reverse_reverse]
  unfold slugify
  rw [hstrip,
    map_eq_self_of_fixed (fun c hc => (slug_char_facts (h c hc)).2.1),
    filter_eq_self_of_all (fun c hc => (slug_char_facts (h c hc)).2.2.1),
    collapseRuns_eq_self_of_none
      (fun c hc => (slug_char_facts (h c hc)).2.2.2) false]

end Mlfs

namespace Mlfs

lemma mem_of_mem_dropWhile {p : Nat → Bool} :
    ∀ {l : List Nat} {a : Nat}, a ∈ l.dropWhile p → a ∈ l := by
  intro l
  induction l with
  | nil => intro a h; simp at h
  | cons b t ih =>
    intro a h
    rw [List.dropWhile_cons] at h
    by_cases hb : p b = true
    · rw [if_pos hb] at h
      exact List.mem_cons_of_mem _ (ih h)
    · rw [if_neg hb] at h
      exact h

lemma mem_pyStrip {s : List Nat} {a : Nat} (h : a ∈ pyStrip s) : a ∈ s := by
  unfold pyStrip at h
  rw [List.mem_reverse] at h
  have h1 := mem_of_mem_dropWhile h
  rw [List.mem_reverse] at h1
  exact mem_of_mem_dropWhile h1

/-- On the three upper-case ranges, `pyLower` moves the codepoint down by
32 — stated upward for rewriting. -/
lemma pyLower_of_upper {a : Nat}
    (h : (65 ≤ a ∧ a ≤ 90) ∨ (192 ≤ a ∧ a ≤ 214) ∨ (216 ≤ a ∧ a ≤ 222)) :
    pyLower a = a + 32 := by
  have hcond : ((65 ≤ a && a ≤ 90) || (192 ≤ a && a ≤ 214) ||
      (216 ≤ a && a ≤ 222)) = true := by
    simp only [Bool.or_eq_true, Bool.and_eq_true, decide_eq_true_eq]
    rcases h with h | h | h
    · exact Or.inl (Or.inl h)
    · exact Or.inl (Or.inr h)
    · exact Or.inr h
  unfold pyLower
  rw [if_pos hcond]

/-- For an input of ASCII characters, every `slugify` output character lies in
`[a-z0-9_]`. -/
lemma slugify_ascii_charset {x : List Nat} (hx : ∀ c ∈ x, c < 128) :
    ∀ c ∈ slugify x, isSlugOutputChar c = true := by
  intro c hc
  have hgood := slugify_output_chars c hc
  unfold slugify at hc
  rcases mem_collapseRuns hc with rfl | ⟨hm, _⟩
  · decide
  · rcases List.mem_filter.mp hm with ⟨hmap, _⟩
    rcases List.mem_map.mp hmap with ⟨a, ha, rfl⟩
    have ha128 : a < 128 := hx a (mem_pyStrip ha)
    have hc128 : pyLower a < 128 := by
      unfold pyLower
      by_cases hcond : ((65 ≤ a && a ≤ 90) || (192 ≤ a && a ≤ 214) ||
          (216 ≤ a && a ≤ 222)) = true
      · rw [if_pos hcond]
        simp only [Bool.or_eq_true, Bool.and_eq_true, decide_eq_true_eq] at hcond
        omega
      · rw [if_neg hcond]
        exact ha128
    simp only [isLowerWordChar, Bool.and_eq_true, decide_eq_true_eq] at hgood
    obtain ⟨hw, hl⟩ := hgood
    simp only [isWordChar, Bool.or_eq_true, Bool.and_eq_true,
      decide_eq_true_eq] at hw
    have hnotupper : ¬(65 ≤ pyLower a ∧ pyLower a ≤ 90) := by
      intro hu
      have hstep := pyLower_of_upper (Or.inl hu)
      rw [hl] at hstep
      omega
    simp only [isSlugOutputChar, Bool.or_eq_true, Bool.and_eq_true,
      decide_eq_true_eq]
    omega

/-- **C4 counterexample.**  Python's `\w` and `str.lower` are Unicode-aware,
so `slugify` keeps non-ASCII word characters: `slugify("é") = "é"`, whose
single character é (233) violates the claimed charset `^[a-z0-9_]*$`, and the
realistic street `"Hauptstraße 12 - Süd"` slugifies to
`"hauptstraße_12_süd"`, not to an `^[a-z0-9_]*$` string. -/
theorem C4_counterexample :
    slugify (codes "é") = codes "é" ∧
      ¬(∀ c ∈ slugify (codes "é"), isSlugOutputChar c = true) ∧
      slugify (codes "Hauptstraße 12 - Süd") =
        codes "hauptstraße_12_süd" := by
  refine ⟨by decide, by decide, by decide⟩

/-- **C4 (amended).**  `slug` is deterministic (a pure function of its input)
and idempotent — `slugify (slugify x) = slugify x` — for every input string;
every character of its output is a word character fixed by lowering (never an
upper-case letter, whitespace or hyphen); and for inputs consisting of ASCII
characters the output matches the regular expression `^[a-z0-9_]*$`.
(Non-ASCII word characters such as é survive `slugify` and violate that
regex — see the counterexample.) -/
theorem C4_amended_slugify (x : List Nat) :
    slugify (slugify x) = slugify x ∧
      (∀ c ∈ slugify x, isLowerWordChar c = true) ∧
      ((∀ c ∈ x, c < 128) → ∀ c ∈ slugify x, isSlugOutputChar c = true) :=
  ⟨slugify_fixed_of_slug_chars (fun _ hc => slugify_output_chars _ hc),
    fun _ hc => slugify_output_chars _ hc,
    fun hx => slugify_ascii_charset hx⟩

/-- Witness for `C4_amended_slugify` at the ASCII street
`"Hauptstrasse 12 - Sued"`, with the ASCII hypothesis discharged. -/
theorem C4_amended_slugify_witness :
    slugify (slugify (codes "Hauptstrasse 12 - Sued")) =
        slugify (codes "Hauptstrasse 12 - Sued") ∧
      (∀ c ∈ slugify (codes "Hauptstrasse 12 - Sued"),
        isLowerWordChar c = true) ∧
      ∀ c ∈ slugify (codes "Hauptstrasse 12 - Sued"),
        isSlugOutputChar c = true :=
  ⟨(C4_amended_slugify (codes "Hauptstrasse 12 - Sued")).1,
    (C4_amended_slugify (codes "Hauptstrasse 12 - Sued")).2.1,
    (C4_amended_slugify (codes "Hauptstrasse 12 - Sued")).2.2 (by decide)⟩

end Mlfs

namespace Mlfs

namespace ParamBackfill

/-- `1_feat_back_param.py` line 135: `aq_fg_name = f"air_quality_{street_slug}"`. -/
def aqFgName (street : List Nat) : List Nat :=
  codes "air_quality_" ++ slugify street

/-- `1_feat_back_param.py` line 136: `weather_fg_name = f"weather_{street_slug}"`. -/
def weatherFgName (street : List Nat) : List Nat :=
  codes "weather_" ++ slugify street

/-- `1_feat_back_param.py` lines 49–51: `air_quality_csv_path`, the convention
`data/<street_slug>.csv` (relative to the project root). -/
def airQualityCsvPath (street : List Nat) : List Nat :=
  codes "data/" ++ slugify street ++ codes ".csv"

end ParamBackfill

namespace Incremental

/-- `2_feature_pipeline.py` line 94: the incremental flow looks up
`fs.get_feature_group(name=f"air_quality_{street_slug}", version=1)`. -/
def aqFgName (street : List Nat) : List Nat :=
  codes "air_quality_" ++ slugify street

/-- `2_feature_pipeline.py` line 95: lookup of `f"weather_{street_slug}"`. -/
def weatherFgName (street : List Nat) : List Nat :=
  codes "weather_" ++ slugify street

end Incremental

namespace SingleBackfill

/-- `1_feature_backfill.py` line 145: the single-sensor backfill script creates
the feature group with the fixed name `"air_quality"` (no slug suffix). -/
def aqFgName : List Nat := codes "air_quality"

/-- `1_feature_backfill.py` line 165: fixed name `"weather"` (no slug suffix). -/
def weatherFgName : List Nat := codes "weather"

end SingleBackfill

/-- **C5 counterexample.**  The claim says the backfill flow creates collections
named `{kind}_{slug(street)}` for every sensor, citing `1_feature_backfill.py`;
but that script creates the fixed names `air_quality` / `weather`, which differ
from `{kind}_{slug(street)}` for the concrete street `"schottenfeldgasse"`
(the street whose CSV that script loads). -/
theorem C5_counterexample :
    SingleBackfill.aqFgName ≠ ParamBackfill.aqFgName (codes "schottenfeldgasse") ∧
      SingleBackfill.weatherFgName ≠
        ParamBackfill.weatherFgName (codes "schottenfeldgasse") := by
  decide

/-- **C5 (amended).**  The parameterized backfill flow (`1_feat_back_param.py`)
creates, and the incremental flow (`2_feature_pipeline.py`) looks up, collections
whose names are derived identically as `{kind}_{slug(street)}` with
kind ∈ {air_quality, weather}, so those two flows address the same per-sensor
collections; the single-sensor backfill script (`1_feature_backfill.py`) instead
uses the fixed names `air_quality` / `weather`, which no street's derived name
ever equals. -/
theorem C5_amended_flow_names_agree (street : List Nat) :
    ParamBackfill.aqFgName street = Incremental.aqFgName street ∧
      ParamBackfill.weatherFgName street = Incremental.weatherFgName street ∧
      Incremental.aqFgName street ≠ SingleBackfill.aqFgName ∧
      Incremental.weatherFgName street ≠ SingleBackfill.weatherFgName := by
  refine ⟨rfl, rfl, ?_, ?_⟩
  · intro h
    have hl := congrArg List.length h
    simp [Incremental.aqFgName, SingleBackfill.aqFgName, codes] at hl
  · intro h
    have hl := congrArg List.length h
    simp [Incremental.weatherFgName, SingleBackfill.weatherFgName, codes] at hl

/-- Witness for `C5_amended_flow_names_agree` at the concrete street
`"schottenfeldgasse"`. -/
theorem C5_amended_flow_names_agree_witness :
    ParamBackfill.aqFgName (codes "schottenfeldgasse") =
        Incremental.aqFgName (codes "schottenfeldgasse") ∧
      ParamBackfill.weatherFgName (codes "schottenfeldgasse") =
        Incremental.weatherFgName (codes "schottenfeldgasse") ∧
      Incremental.aqFgName (codes "schottenfeldgasse") ≠ SingleBackfill.aqFgName ∧
      Incremental.weatherFgName (codes "schottenfeldgasse") ≠
        SingleBackfill.weatherFgName :=
  C5_amended_flow_names_agree (codes "schottenfeldgasse")

/-- **C9 counterexample.**  The claim says a street consisting only of
whitespace and hyphens slugifies to the empty string; but for the street `"-"`
(one hyphen) `slugify` returns `"_"` (a single underscore), and the derived
collection name is `air_quality__`, not the bare prefix `air_quality_`. -/
theorem C9_counterexample :
    slugify (codes "-") = codes "_" ∧ slugify (codes "-") ≠ [] ∧
      ParamBackfill.aqFgName (codes "-") = codes "air_quality__" := by
  decide

/-- **C9 (amended).**  For a street that is empty or consists only of
whitespace, `slugify` returns the empty string without raising an error, so the
historical-readings path becomes `data/.csv` and the derived collection names
become the bare prefixes `air_quality_` and `weather_` (trailing underscore, no
discriminating suffix); a whitespace-and-hyphen street that contains at least
one hyphen instead slugifies to `"_"` (see the counterexample). -/
theorem C9_amended_empty_street (street : List Nat)
    (h : ∀ c ∈ street, isPySpace c = true) :
    slugify street = [] ∧
      ParamBackfill.aqFgName street = codes "air_quality_" ∧
      ParamBackfill.weatherFgName street = codes "weather_" ∧
      ParamBackfill.airQualityCsvPath street = codes "data/.csv" := by
  have hdrop : street.dropWhile isPySpace = [] := by
    induction street with
    | nil => rfl
    | cons a t ih =>
      simp [List.dropWhile, h a (by simp)]
      exact fun c hc => h c (by simp [hc])
  have hslug : slugify street = [] := by
    unfold slugify pyStrip
    rw [hdrop]
    rfl
  refine ⟨hslug, ?_, ?_, ?_⟩
  · rw [ParamBackfill.aqFgName, hslug, List.append_nil]
  · rw [ParamBackfill.weatherFgName, hslug, List.append_nil]
  · rw [ParamBackfill.airQualityCsvPath, hslug]
    decide

/-- Witness for `C9_amended_empty_street` at the concrete street `" "`. -/
theorem C9_amended_empty_street_witness :
    slugify (codes " ") = [] ∧
      ParamBackfill.aqFgName (codes " ") = codes "air_quality_" ∧
      ParamBackfill.weatherFgName (codes " ") = codes "weather_" ∧
      ParamBackfill.airQualityCsvPath (codes " ") = codes "data/.csv" :=
  C9_amended_empty_street (codes " ") (by decide)

end Mlfs

namespace Mlfs

/-- One sub-daily sample of the hourly weather forecast frame
(`util.get_hourly_weather_forecast`): `day` is the calendar day, `minute` the
wall-clock minute of that day (0–1439); the weather measurement columns, which
the date transformation leaves untouched, are abstracted by `temperature`. -/
structure Sample where
  day : Nat
  minute : Nat
  temperature : Int
deriving DecidableEq

namespace Incremental

/-- `2_feature_pipeline.py` line 88:
`hourly_df.between_time("11:59", "12:01")` — keep the rows whose time of day
lies in the inclusive window 11:59–12:01, i.e. minutes 719–721. -/
def noonWindow (rows : List Sample) : List Sample :=
  rows.filter (fun r => 719 ≤ r.minute && r.minute ≤ 721)

/-- `2_feature_pipeline.py` lines 87–90: the daily weather frame — the rows in
the noon window, with the event time truncated to the calendar day
(`.dt.date` followed by `pd.to_datetime`, i.e. minute of day set to 0). -/
def dailyWeatherRows (rows : List Sample) : List Sample :=
  (noonWindow rows).map (fun r => { r with minute := 0 })

end Incremental

/-- **C3 counterexample.**  The claim says that when no hourly sample falls in
the noon window the pipeline still chooses the nearest available sample rather
than producing an empty result; but for a nonempty hourly frame whose only
sample is at 13:00 (minute 780), the code's `between_time("11:59","12:01")`
filter yields the empty frame. -/
theorem C3_counterexample :
    Incremental.dailyWeatherRows [Sample.mk 0 780 20] = [] ∧
      ([Sample.mk 0 780 20] : List Sample) ≠ [] := by
  decide

/-- **C3 (amended).**  The incremental flow keeps exactly the hourly samples
whose time of day lies in the inclusive window 11:59–12:01: for data sampled on
the hour this selects precisely the 12:00 sample of each day; and if no sample
falls inside the window the derived daily frame is empty (no nearest-sample
fallback exists in the code). -/
theorem C3_amended_noon_window (rows : List Sample)
    (h : ∀ r ∈ rows, r.minute % 60 = 0) :
    Incremental.noonWindow rows = rows.filter (fun r => r.minute = 720) ∧
      ((∀ r ∈ rows, ¬(719 ≤ r.minute ∧ r.minute ≤ 721)) →
        Incremental.dailyWeatherRows rows = []) := by
  constructor
  · unfold Incremental.noonWindow
    induction rows with
    | nil => rfl
    | cons a t ih =>
      have ha : (719 ≤ a.minute && a.minute ≤ 721) = decide (a.minute = 720) := by
        have hm := h a (by simp)
        by_cases h720 : a.minute = 720
        · simp [h720]
        · have h1 : ¬(719 ≤ a.minute ∧ a.minute ≤ 721) := by omega
          simp only [Bool.and_eq_true, decide_eq_true_eq] at *
          simp [h720, decide_eq_false h720]
          omega
      simp only [List.filter_cons, ha]
      rw [ih (fun c hc => h c (by simp [hc]))]
  · intro hnone
    unfold Incremental.dailyWeatherRows Incremental.noonWindow
    have : rows.filter (fun r => 719 ≤ r.minute && r.minute ≤ 721) = [] := by
      induction rows with
      | nil => rfl
      | cons a t ih =>
        have ha : (719 ≤ a.minute && a.minute ≤ 721) = false := by
          have := hnone a (by simp)
          simp only [Bool.and_eq_false_iff, decide_eq_false_iff_not]
          omega
        simp only [List.filter_cons, ha, Bool.false_eq_true, if_false]
        exact ih (fun c hc => h c (by simp [hc]))
          (fun c hc => hnone c (by simp [hc]))
    rw [this]
    rfl

/-- Witness for `C3_amended_noon_window`: an on-the-hour frame with samples at
11:00, 12:00 and 13:00 on day 0, none of which the second conjunct's
hypothesis admits, and whose window selection is exactly the 12:00 sample. -/
theorem C3_amended_noon_window_witness :
    Incremental.noonWindow [Sample.mk 0 660 1, Sample.mk 0 720 2, Sample.mk 0 780 3] =
        List.filter (fun r => decide (r.minute = 720))
          [Sample.mk 0 660 1, Sample.mk 0 720 2, Sample.mk 0 780 3] ∧
      ((∀ r ∈ [Sample.mk 0 660 1, Sample.mk 0 720 2, Sample.mk 0 780 3],
          ¬(719 ≤ r.minute ∧ r.minute ≤ 721)) →
        Incremental.dailyWeatherRows
          [Sample.mk 0 660 1, Sample.mk 0 720 2, Sample.mk 0 780 3] = []) :=
  C3_amended_noon_window
    [Sample.mk 0 660 1, Sample.mk 0 720 2, Sample.mk 0 780 3] (by decide)

/-- **C10.**  In the incremental flow, every weather row inserted into the
weather collection has its event-time value truncated to midnight of its
calendar day (minute of day 0) before insert; the sub-daily timestamp of the
near-noon sample is never stored. -/
theorem C10_weather_event_time_truncated (rows : List Sample) :
    ∀ r ∈ Incremental.dailyWeatherRows rows, r.minute = 0 := by
  intro r hr
  rcases List.mem_map.mp hr with ⟨s, _, rfl⟩
  rfl

/-- Witness for `C10_weather_event_time_truncated` at a concrete frame holding
one 12:00 sample. -/
theorem C10_weather_event_time_truncated_witness :
    Sample.mk 0 0 20 ∈ Incremental.dailyWeatherRows [Sample.mk 0 720 20] ∧
      (Sample.mk 0 0 20).minute = 0 :=
  ⟨by decide,
    C10_weather_event_time_truncated [Sample.mk 0 720 20]
      (Sample.mk 0 0 20) (by decide)⟩

end Mlfs

namespace Mlfs

/-- One row of the cleaned historical air-quality frame `df_aq`
(`1_feat_back_param.py` lines 103–109): the event time and the measurement
`pm25`; the per-sensor constant identity columns (country, city, street, url),
which take no part in validation, are abstracted away. -/
structure AQRow where
  date : Nat
  pm25 : Rat
deriving DecidableEq

/-- One row of the historical/daily weather frame: the event time and the two
columns constrained by the weather expectation suite; the remaining weather
columns take no part in validation. -/
structure WxRow where
  date : Nat
  precipitation_sum : Rat
  wind_speed_10m_max : Rat
deriving DecidableEq

/-- `expect_column_min_to_be_between(column, min_value, max_value,
strict_min=True)` (`1_feat_back_param.py` lines 63–84): the minimum of the
column values must exceed `minValue` strictly and be at most `maxValue`
(`strict_max` is not set, so the upper comparison is inclusive); an empty
column passes vacuously. -/
def columnMinBetween (vals : List Rat) (minValue maxValue : Rat) : Bool :=
  match vals with
  | [] => true
  | v :: vs =>
    let m := vs.foldl min v
    decide (minValue < m) && decide (m ≤ maxValue)

/-- The air-quality expectation suite (`ge_suite_air_quality`): the minimum of
`pm25` must lie in `(-0.1, 500.0]`. -/
def aqSuitePasses (rows : List AQRow) : Bool :=
  columnMinBetween (rows.map AQRow.pm25) (-1/10) 500

/-- The weather expectation suite (`ge_suite_weather`): the minima of
`precipitation_sum` and `wind_speed_10m_max` must each lie in `(-0.1, 1000.0]`. -/
def weatherSuitePasses (rows : List WxRow) : Bool :=
  columnMinBetween (rows.map WxRow.precipitation_sum) (-1/10) 1000 &&
    columnMinBetween (rows.map WxRow.wind_speed_10m_max) (-1/10) 1000

/-- Modelled from the spec: §4.5 Feature Store Gateway — the store behind
`fs.get_or_create_feature_group` / `insert`, which lives in the hopsworks
library, not in this repository.  It maps a `(name, version)` key to the rows
stored so far (one map per row schema); `none` means the collection does not
exist. -/
structure Store where
  aq : (List Nat × Nat) → Option (List AQRow)
  wx : (List Nat × Nat) → Option (List WxRow)

def emptyStore : Store := ⟨fun _ => none, fun _ => none⟩

/-- Modelled from the spec: §4.5 — `get_or_create_feature_group` is idempotent:
an existing collection (same name and version) is reused unchanged, otherwise an
empty one is created. -/
def getOrCreateAq (st : Store) (k : List Nat × Nat) : Store :=
  match st.aq k with
  | some _ => st
  | none => { st with aq := fun k' => if k' = k then some [] else st.aq k' }

/-- Modelled from the spec: §4.5 — weather-kind counterpart of `getOrCreateAq`. -/
def getOrCreateWx (st : Store) (k : List Nat × Nat) : Store :=
  match st.wx k with
  | some _ => st
  | none => { st with wx := fun k' => if k' = k then some [] else st.wx k' }

/-- Modelled from the spec: §4.4/§4.5 — `insert` evaluates the attached
expectation suite before any row reaches durable storage; a failing validation
raises (result `none`) and stores nothing, a passing one appends the batch.
The enforcement point lives in the hopsworks/great_expectations libraries, not
in this repository; this is the spec's §4.4 design requirement. -/
def insertAq (st : Store) (k : List Nat × Nat) (rows : List AQRow) :
    Option Store :=
  if aqSuitePasses rows then
    some { st with aq := fun k' => if k' = k then (st.aq k).map (· ++ rows) else st.aq k' }
  else none

/-- Modelled from the spec: §4.4/§4.5 — weather-kind counterpart of `insertAq`. -/
def insertWx (st : Store) (k : List Nat × Nat) (rows : List WxRow) :
    Option Store :=
  if weatherSuitePasses rows then
    some { st with wx := fun k' => if k' = k then (st.wx k).map (· ++ rows) else st.wx k' }
  else none

/-- Modelled from the spec: §6 Secret store interface (`get`, `create`,
`delete` live in the hopsworks library).  Records in creation order;
`get_secret` finds the first record with the given name. -/
abbrev SecretStore := List (List Nat × List Nat)

/-- Modelled from the spec: §6 — `get(name) -> Optional<SecretRecord>`. -/
def getSecret (st : SecretStore) (name : List Nat) : Option (List Nat) :=
  (st.find? (fun r => r.1 = name)).map (·.2)

/-- Modelled from the spec: §6 — `delete(record)`: removes the record that
`get` found (the first one with that name). -/
def deleteSecret (st : SecretStore) (name : List Nat) : SecretStore :=
  st.eraseP (fun r => r.1 = name)

/-- Modelled from the spec: §6 — `create(name, value)` appends a new record. -/
def createSecret (st : SecretStore) (name value : List Nat) : SecretStore :=
  st ++ [(name, value)]

/-- Whether the `try` body of `save_secret` (the `get_secret`/`delete` calls)
raises a `SecretStoreError`; the code swallows either failure. -/
inductive LookupFault
  | ok
  | raises
deriving DecidableEq

/-- `save_secret` from `1_feat_back_param.py` lines 53–61 (the same
delete-then-create block appears inline in `1_feature_backfill.py`
lines 69–76 and 134–141): try to read the existing secret and delete it if
found; swallow any exception from that block; then unconditionally create the
new secret. -/
def saveSecret (fault : LookupFault) (st : SecretStore)
    (name value : List Nat) : SecretStore :=
  match fault with
  | .raises => createSecret st name value
  | .ok =>
    match getSecret st name with
    | some _ => createSecret (deleteSecret st name) name value
    | none => createSecret st name value

/-- One parsed row of the sensor registry CSV (`sensors.csv`), read with
`dtype=str` and `fillna("")`: all six required columns as strings, possibly
empty. -/
structure SensorRow where
  url : List Nat
  country : List Nat
  city : List Nat
  street : List Nat
  latitude : List Nat
  longitude : List Nat
deriving DecidableEq

/-- The per-sensor location JSON blob (`1_feat_back_param.py` lines 124–131);
its JSON syntax is irrelevant to every claim, so serialization is abstracted as
the concatenation of the serialized fields. -/
def locationJson (s : SensorRow) : List Nat :=
  s.country ++ s.city ++ s.street ++ s.url ++ s.latitude ++ s.longitude

/-- The mutable external state the pipeline writes to: the feature store and
the secret store. -/
structure PipeState where
  store : Store
  secrets : SecretStore

/-- Result of the per-sensor data acquisition (the historical CSV read via
`util.check_file_path`/`pd.read_csv` and `util.get_historical_weather`):
`none` models any exception raised while acquiring (missing file,
`DataSourceError`), `some` the cleaned air-quality rows and weather rows. -/
abbrev AcqOracle := SensorRow → Option (List AQRow × List WxRow)

/-- How processing one sensor ended: an acquisition failure, a validation
failure of the air-quality batch, or a validation failure of the weather
batch. -/
inductive SensorErr
  | acquisition
  | aqValidation
  | wxValidation
deriving DecidableEq

/-- `process_sensor` from `1_feat_back_param.py` lines 86–171, given already
acquired data, in source order: save the global API-key secret and the
per-sensor location secret, get-or-create the air-quality group and insert the
air-quality batch, then get-or-create the weather group and insert the weather
batch.  A validation failure raises, leaving the effects made so far in
place. -/
def processSensor (st : PipeState) (apiKey : List Nat) (s : SensorRow)
    (aqRows : List AQRow) (wxRows : List WxRow) :
    PipeState × Option SensorErr :=
  let sec1 := saveSecret .ok st.secrets (codes "AQICN_API_KEY") apiKey
  let sec2 := saveSecret .ok sec1
    (codes "SENSOR_LOCATION_JSON_" ++ slugify s.street) (locationJson s)
  let aqKey : List Nat × Nat := (ParamBackfill.aqFgName s.street, 1)
  let wxKey : List Nat × Nat := (ParamBackfill.weatherFgName s.street, 1)
  let st1 := getOrCreateAq st.store aqKey
  match insertAq st1 aqKey aqRows with
  | none => (⟨st1, sec2⟩, some .aqValidation)
  | some st2 =>
    let st3 := getOrCreateWx st2 wxKey
    match insertWx st3 wxKey wxRows with
    | none => (⟨st3, sec2⟩, some .wxValidation)
    | some st4 => (⟨st4, sec2⟩, none)

/-- One iteration of the orchestrator loop body: acquire, then run
`process_sensor`; an acquisition failure touches no state. -/
def runSensor (acq : AcqOracle) (apiKey : List Nat) (st : PipeState)
    (s : SensorRow) : PipeState × Option SensorErr :=
  match acq s with
  | none => (st, some .acquisition)
  | some (aqRows, wxRows) => processSensor st apiKey s aqRows wxRows

/-- Outcome of the orchestrator loop: the final external state, the identities
`(city, street)` logged for failing sensors in registry order, and the rows
attempted in registry order. -/
structure LoopResult where
  state : PipeState
  failures : List (List Nat × List Nat)
  attempted : List SensorRow

/-- The orchestrator loop of `main` (`1_feat_back_param.py` lines 197–203, the
same shape in `2_feature_pipeline.py` lines 114–120): each sensor is processed
inside `try`; any exception is caught, the sensor's city and street are logged,
and the loop proceeds to the next sensor. -/
def mainLoop (acq : AcqOracle) (apiKey : List Nat) :
    PipeState → List SensorRow → LoopResult
  | st, [] => ⟨st, [], []⟩
  | st, s :: rest =>
    let r := runSensor acq apiKey st s
    let tail := mainLoop acq apiKey r.1 rest
    ⟨tail.state,
      (match r.2 with
        | some _ => [(s.city, s.street)]
        | none => []) ++ tail.failures,
      s :: tail.attempted⟩

/-- The required registry columns (`1_feat_back_param.py` line 188,
`2_feature_pipeline.py` line 58). -/
def requiredCols : List (List Nat) :=
  [codes "AQICN_URL", codes "country", codes "city", codes "street",
   codes "latitude", codes "longitude"]

/-- `required_cols - set(sensors_df.columns)`: the required columns absent from
the registry header (membership is what matters; python renders them sorted in
the error message). -/
def missingCols (header : List (List Nat)) : List (List Nat) :=
  requiredCols.filter (fun c => !header.contains c)

/-- The sensor registry CSV as read: its header columns and its data rows. -/
structure Registry where
  header : List (List Nat)
  rows : List SensorRow

/-- The enumerated pre-loop fatal configuration errors of `main`; the
missing-columns message carries the offending column names. -/
inductive FatalReason
  | missingApiKey
  | missingCsvFile
  | missingColumns (cols : List (List Nat))
deriving DecidableEq

/-- How a run of `main` ended: a pre-loop fatal `sys.exit(1)`, or normal
completion (exit code 0) with the loop's outcome. -/
inductive RunOutcome
  | fatal (exitCode : Nat) (reason : FatalReason)
  | completed (exitCode : Nat) (result : LoopResult)

/-- `main` from `1_feat_back_param.py` lines 174–205 in source order: exit 1 if
the API key is unset; exit 1 if the sensors CSV is missing; exit 1 naming the
missing columns if any required column is absent from the header; otherwise run
the loop over every registry row and finish normally (exit code 0). -/
def runMain (acq : AcqOracle) (apiKey : Option (List Nat)) (csvExists : Bool)
    (reg : Registry) (st : PipeState) : RunOutcome :=
  match apiKey with
  | none => .fatal 1 .missingApiKey
  | some key =>
    if csvExists then
      let missing := missingCols reg.header
      if missing = [] then .completed 0 (mainLoop acq key st reg.rows)
      else .fatal 1 (.missingColumns missing)
    else .fatal 1 .missingCsvFile

/-- The exit code of a run. -/
def RunOutcome.exitCode : RunOutcome → Nat
  | .fatal c _ => c
  | .completed c _ => c

/-- The sensors a run attempted (none for a pre-loop fatal exit). -/
def RunOutcome.attemptedRows : RunOutcome → List SensorRow
  | .fatal _ _ => []
  | .completed _ r => r.attempted

/-- `(name, version) ↦ stored rows` projection of a run's final air-quality
collections (`none` for a pre-loop fatal exit or an absent collection). -/
def RunOutcome.aqStored (o : RunOutcome) (k : List Nat × Nat) :
    Option (List AQRow) :=
  match o with
  | .fatal _ _ => none
  | .completed _ r => r.state.store.aq k

/-- `st'` extends `st`: every collection existing in `st` still exists in `st'`
and holds its old rows as a prefix (rows are only ever appended, never removed
or rewritten). -/
def storeExtends (st st' : Store) : Prop :=
  (∀ k r0, st.aq k = some r0 → ∃ ext, st'.aq k = some (r0 ++ ext)) ∧
    (∀ k r0, st.wx k = some r0 → ∃ ext, st'.wx k = some (r0 ++ ext))

/-- The rows currently stored in a sensor's air-quality collection
(empty when the collection does not exist). -/
def aqStoredRows (st : Store) (street : List Nat) : List AQRow :=
  (st.aq (ParamBackfill.aqFgName street, 1)).getD []

/-- The rows currently stored in a sensor's weather collection. -/
def wxStoredRows (st : Store) (street : List Nat) : List WxRow :=
  (st.wx (ParamBackfill.weatherFgName street, 1)).getD []

lemma storeExtends_refl (st : Store) : storeExtends st st :=
  ⟨fun _ r0 h => ⟨[], by simpa using h⟩, fun _ r0 h => ⟨[], by simpa using h⟩⟩

lemma storeExtends_trans {a b c : Store} (h1 : storeExtends a b)
    (h2 : storeExtends b c) : storeExtends a c := by
  constructor
  · intro k r0 h
    obtain ⟨e1, he1⟩ := h1.1 k r0 h
    obtain ⟨e2, he2⟩ := h2.1 k (r0 ++ e1) he1
    exact ⟨e1 ++ e2, by simpa [List.append_assoc] using he2⟩
  · intro k r0 h
    obtain ⟨e1, he1⟩ := h1.2 k r0 h
    obtain ⟨e2, he2⟩ := h2.2 k (r0 ++ e1) he1
    exact ⟨e1 ++ e2, by simpa [List.append_assoc] using he2⟩

lemma getOrCreateAq_at (st : Store) (k : List Nat × Nat) :
    (getOrCreateAq st k).aq k = some ((st.aq k).getD []) := by
  unfold getOrCreateAq
  cases h : st.aq k <;> simp [h]

lemma getOrCreateAq_wx (st : Store) (k : List Nat × Nat) :
    (getOrCreateAq st k).wx = st.wx := by
  unfold getOrCreateAq
  cases h : st.aq k <;> rfl

lemma getOrCreateWx_at (st : Store) (k : List Nat × Nat) :
    (getOrCreateWx st k).wx k = some ((st.wx k).getD []) := by
  unfold getOrCreateWx
  cases h : st.wx k <;> simp [h]

lemma getOrCreateWx_aq (st : Store) (k : List Nat × Nat) :
    (getOrCreateWx st k).aq = st.aq := by
  unfold getOrCreateWx
  cases h : st.wx k <;> rfl

lemma getOrCreateAq_extends (st : Store) (k : List Nat × Nat) :
    storeExtends st (getOrCreateAq st k) := by
  unfold getOrCreateAq
  cases h : st.aq k with
  | some r => exact storeExtends_refl st
  | none =>
    refine ⟨fun k' r0 h0 => ⟨[], ?_⟩, fun k' r0 h0 => ⟨[], by simpa using h0⟩⟩
    have hne : k' ≠ k := by
      intro he
      rw [he, h] at h0
      exact Option.noConfusion h0
    simpa [hne] using h0

lemma getOrCreateWx_extends (st : Store) (k : List Nat × Nat) :
    storeExtends st (getOrCreateWx st k) := by
  unfold getOrCreateWx
  cases h : st.wx k with
  | some r => exact storeExtends_refl st
  | none =>
    refine ⟨fun k' r0 h0 => ⟨[], by simpa using h0⟩, fun k' r0 h0 => ⟨[], ?_⟩⟩
    have hne : k' ≠ k := by
      intro he
      rw [he, h] at h0
      exact Option.noConfusion h0
    simpa [hne] using h0

lemma insertAq_extends {st st' : Store} {k : List Nat × Nat} {rows : List AQRow}
    (h : insertAq st k rows = some st') : storeExtends st st' := by
  unfold insertAq at h
  by_cases hp : aqSuitePasses rows = true
  · rw [if_pos hp] at h
    obtain rfl := Option.some.inj h
    refine ⟨fun k' r0 h0 => ?_, fun k' r0 h0 => ⟨[], by simpa using h0⟩⟩
    by_cases he : k' = k
    · subst he
      exact ⟨rows, by simp [h0]⟩
    · exact ⟨[], by simpa [he] using h0⟩
  · rw [if_neg hp] at h
    exact Option.noConfusion h

lemma insertWx_extends {st st' : Store} {k : List Nat × Nat} {rows : List WxRow}
    (h : insertWx st k rows = some st') : storeExtends st st' := by
  unfold insertWx at h
  by_cases hp : weatherSuitePasses rows = true
  · rw [if_pos hp] at h
    obtain rfl := Option.some.inj h
    refine ⟨fun k' r0 h0 => ⟨[], by simpa using h0⟩, fun k' r0 h0 => ?_⟩
    by_cases he : k' = k
    · subst he
      exact ⟨rows, by simp [h0]⟩
    · exact ⟨[], by simpa [he] using h0⟩
  · rw [if_neg hp] at h
    exact Option.noConfusion h

lemma processSensor_extends (st : PipeState) (apiKey : List Nat)
    (s : SensorRow) (aqRows : List AQRow) (wxRows : List WxRow) :
    storeExtends st.store (processSensor st apiKey s aqRows wxRows).1.store := by
  unfold processSensor
  cases h1 : insertAq (getOrCreateAq st.store (ParamBackfill.aqFgName s.street, 1))
      (ParamBackfill.aqFgName s.street, 1) aqRows with
  | none =>
    simp only [h1]
    exact getOrCreateAq_extends _ _
  | some st2 =>
    cases h2 : insertWx (getOrCreateWx st2 (ParamBackfill.weatherFgName s.street, 1))
        (ParamBackfill.weatherFgName s.street, 1) wxRows with
    | none =>
      simp only [h1, h2]
      exact storeExtends_trans (getOrCreateAq_extends _ _)
        (storeExtends_trans (insertAq_extends h1) (getOrCreateWx_extends _ _))
    | some st4 =>
      simp only [h1, h2]
      exact storeExtends_trans (getOrCreateAq_extends _ _)
        (storeExtends_trans (insertAq_extends h1)
          (storeExtends_trans (getOrCreateWx_extends _ _) (insertWx_extends h2)))

lemma runSensor_extends (acq : AcqOracle) (apiKey : List Nat) (st : PipeState)
    (s : SensorRow) :
    storeExtends st.store (runSensor acq apiKey st s).1.store := by
  unfold runSensor
  cases h : acq s with
  | none => exact storeExtends_refl _
  | some p => exact processSensor_extends st apiKey s p.1 p.2

lemma mainLoop_extends (acq : AcqOracle) (apiKey : List Nat) :
    ∀ (rows : List SensorRow) (st : PipeState),
      storeExtends st.store (mainLoop acq apiKey st rows).state.store := by
  intro rows
  induction rows with
  | nil => intro st; exact storeExtends_refl _
  | cons s rest ih =>
    intro st
    exact storeExtends_trans (runSensor_extends acq apiKey st s)
      (ih (runSensor acq apiKey st s).1)

lemma mainLoop_attempted (acq : AcqOracle) (apiKey : List Nat) :
    ∀ (rows : List SensorRow) (st : PipeState),
      (mainLoop acq apiKey st rows).attempted = rows := by
  intro rows
  induction rows with
  | nil => intro st; rfl
  | cons s rest ih =>
    intro st
    simp only [mainLoop, ih]

lemma mainLoop_failures_mem (acq : AcqOracle) (apiKey : List Nat) :
    ∀ (rows : List SensorRow) (st : PipeState),
      ∀ e ∈ (mainLoop acq apiKey st rows).failures,
        ∃ s ∈ rows, e = (s.city, s.street) := by
  intro rows
  induction rows with
  | nil => intro st e he; simp [mainLoop] at he
  | cons s rest ih =>
    intro st e he
    simp only [mainLoop, List.mem_append] at he
    rcases he with hh | ht
    · cases hr : (runSensor acq apiKey st s).2 with
      | some err =>
        rw [hr] at hh
        simp at hh
        exact ⟨s, by simp, hh⟩
      | none =>
        rw [hr] at hh
        simp at hh
    · obtain ⟨s', hs', he'⟩ := ih (runSensor acq apiKey st s).1 e ht
      exact ⟨s', by simp [hs'], he'⟩

lemma mainLoop_append_state (acq : AcqOracle) (apiKey : List Nat) :
    ∀ (pre post : List SensorRow) (st : PipeState),
      (mainLoop acq apiKey st (pre ++ post)).state =
        (mainLoop acq apiKey (mainLoop acq apiKey st pre).state post).state := by
  intro pre
  induction pre with
  | nil => intro post st; rfl
  | cons s rest ih =>
    intro post st
    simp only [List.cons_append, mainLoop]
    exact ih post (runSensor acq apiKey st s).1

lemma insertAq_none_of_fail {rows : List AQRow}
    (h : aqSuitePasses rows = false) (st : Store) (k : List Nat × Nat) :
    insertAq st k rows = none := by
  simp [insertAq, h]

lemma insertAq_some_of_pass {rows : List AQRow}
    (h : aqSuitePasses rows = true) (st : Store) (k : List Nat × Nat) :
    insertAq st k rows =
      some { st with
        aq := fun k' => if k' = k then (st.aq k).map (· ++ rows) else st.aq k' } := by
  simp [insertAq, h]

lemma insertWx_none_of_fail {rows : List WxRow}
    (h : weatherSuitePasses rows = false) (st : Store) (k : List Nat × Nat) :
    insertWx st k rows = none := by
  simp [insertWx, h]

lemma insertWx_some_of_pass {rows : List WxRow}
    (h : weatherSuitePasses rows = true) (st : Store) (k : List Nat × Nat) :
    insertWx st k rows =
      some { st with
        wx := fun k' => if k' = k then (st.wx k).map (· ++ rows) else st.wx k' } := by
  simp [insertWx, h]

/-- **C1 counterexample.**  A sensor whose air-quality batch passes validation
but whose weather batch fails it (precipitation −5): `process_sensor` inserts
the air-quality rows before the weather insert raises the validation error, so
the failing validation is recorded while the sensor's air-quality collection
has already received its new rows — contradicting "the sensor's collections
receive no new rows". -/
theorem C1_counterexample :
    (processSensor ⟨emptyStore, []⟩ (codes "k")
          ⟨codes "u", codes "AT", codes "vienna", codes "x", codes "48", codes "16"⟩
          [⟨0, 10⟩] [⟨0, -5, 1⟩]).2 = some .wxValidation ∧
      (processSensor ⟨emptyStore, []⟩ (codes "k")
          ⟨codes "u", codes "AT", codes "vienna", codes "x", codes "48", codes "16"⟩
          [⟨0, 10⟩] [⟨0, -5, 1⟩]).1.store.aq
            (ParamBackfill.aqFgName (codes "x"), 1) = some [⟨0, 10⟩] := by
  have hpass : aqSuitePasses [⟨0, 10⟩] = true := by
    norm_num [aqSuitePasses, columnMinBetween]
  have hwfail : weatherSuitePasses [⟨0, -5, 1⟩] = false := by
    norm_num [weatherSuitePasses, columnMinBetween]
  constructor
  · simp only [processSensor, insertAq_some_of_pass hpass,
      insertWx_none_of_fail hwfail]
  · simp only [processSensor, insertAq_some_of_pass hpass,
      insertWx_none_of_fail hwfail]
    rw [getOrCreateWx_aq]
    simp only [if_pos rfl, getOrCreateAq_at]
    rfl

/-- **C1 (amended).**  Validation of each batch occurs before that batch
reaches durable storage, and a failing validation prevents the insert of the
failing batch and of every later insert for that sensor; but batches already
inserted for the sensor before the failing one remain stored.  Concretely: a
failing air-quality validation stores nothing for the sensor, while a failing
weather validation leaves the already-inserted air-quality rows in place; rows
are appended only when their batch passes its suite. -/
theorem C1_amended_validation_gate (st : PipeState) (key : List Nat)
    (s : SensorRow) (aqRows : List AQRow) (wxRows : List WxRow) :
    (aqSuitePasses aqRows = false →
      (processSensor st key s aqRows wxRows).2 = some .aqValidation ∧
        aqStoredRows (processSensor st key s aqRows wxRows).1.store s.street =
          aqStoredRows st.store s.street ∧
        wxStoredRows (processSensor st key s aqRows wxRows).1.store s.street =
          wxStoredRows st.store s.street) ∧
      (aqSuitePasses aqRows = true → weatherSuitePasses wxRows = false →
        (processSensor st key s aqRows wxRows).2 = some .wxValidation ∧
          aqStoredRows (processSensor st key s aqRows wxRows).1.store s.street =
            aqStoredRows st.store s.street ++ aqRows ∧
          wxStoredRows (processSensor st key s aqRows wxRows).1.store s.street =
            wxStoredRows st.store s.street) ∧
      (aqSuitePasses aqRows = true → weatherSuitePasses wxRows = true →
        (processSensor st key s aqRows wxRows).2 = none ∧
          aqStoredRows (processSensor st key s aqRows wxRows).1.store s.street =
            aqStoredRows st.store s.street ++ aqRows ∧
          wxStoredRows (processSensor st key s aqRows wxRows).1.store s.street =
            wxStoredRows st.store s.street ++ wxRows) := by
  refine ⟨?_, ?_, ?_⟩
  · intro hfail
    simp only [processSensor, insertAq_none_of_fail hfail]
    refine ⟨by trivial, ?_, ?_⟩
    · unfold aqStoredRows
      rw [getOrCreateAq_at]
      rfl
    · unfold wxStoredRows
      rw [getOrCreateAq_wx]
  · intro hpass hwfail
    simp only [processSensor, insertAq_some_of_pass hpass,
      insertWx_none_of_fail hwfail]
    refine ⟨by trivial, ?_, ?_⟩
    · unfold aqStoredRows
      rw [getOrCreateWx_aq]
      simp only [if_pos rfl, getOrCreateAq_at]
      rfl
    · unfold wxStoredRows
      rw [getOrCreateWx_at]
      simp only [Option.getD_some]
      rw [getOrCreateAq_wx]
  · intro hpass hwpass
    simp only [processSensor, insertAq_some_of_pass hpass,
      insertWx_some_of_pass hwpass]
    refine ⟨by trivial, ?_, ?_⟩
    · unfold aqStoredRows
      simp only [getOrCreateWx_aq, if_pos rfl, getOrCreateAq_at]
      rfl
    · unfold wxStoredRows
      simp only [if_pos rfl, getOrCreateWx_at, Option.getD_some,
        getOrCreateAq_wx]
      rfl

/-- Witness for `C1_amended_validation_gate` (weather-failure branch) at the
counterexample's concrete input. -/
theorem C1_amended_validation_gate_witness :
    (processSensor ⟨emptyStore, []⟩ (codes "k")
          ⟨codes "u", codes "AT", codes "vienna", codes "x", codes "48", codes "16"⟩
          [⟨0, 10⟩] [⟨0, -5, 1⟩]).2 = some .wxValidation ∧
      aqStoredRows (processSensor ⟨emptyStore, []⟩ (codes "k")
          ⟨codes "u", codes "AT", codes "vienna", codes "x", codes "48", codes "16"⟩
          [⟨0, 10⟩] [⟨0, -5, 1⟩]).1.store (codes "x") =
        aqStoredRows emptyStore (codes "x") ++ [⟨0, 10⟩] ∧
      wxStoredRows (processSensor ⟨emptyStore, []⟩ (codes "k")
          ⟨codes "u", codes "AT", codes "vienna", codes "x", codes "48", codes "16"⟩
          [⟨0, 10⟩] [⟨0, -5, 1⟩]).1.store (codes "x") =
        wxStoredRows emptyStore (codes "x") :=
  (C1_amended_validation_gate ⟨emptyStore, []⟩ (codes "k")
      ⟨codes "u", codes "AT", codes "vienna", codes "x", codes "48", codes "16"⟩
      [⟨0, 10⟩] [⟨0, -5, 1⟩]).2.1
    (by norm_num [aqSuitePasses, columnMinBetween])
    (by norm_num [weatherSuitePasses, columnMinBetween])

/-- **C2.**  With a resolvable API key, an existing sensors CSV and a valid
header, a run completes with exit code 0 however the per-sensor processing
ends: every registry row is attempted in registry order, every logged failure
entry carries the city and street of a registry sensor, and for any prefix of
the registry the collections already written after that prefix are only ever
extended — never rewritten or truncated — by the remaining sensors, failing or
not. -/
theorem C2_failure_isolation (acq : AcqOracle) (key : List Nat)
    (reg : Registry) (st : PipeState)
    (hcols : missingCols reg.header = []) :
    runMain acq (some key) true reg st =
        .completed 0 (mainLoop acq key st reg.rows) ∧
      (mainLoop acq key st reg.rows).attempted = reg.rows ∧
      (∀ e ∈ (mainLoop acq key st reg.rows).failures,
        ∃ s ∈ reg.rows, e = (s.city, s.street)) ∧
      ∀ pre post, reg.rows = pre ++ post →
        storeExtends (mainLoop acq key st pre).state.store
          (mainLoop acq key st reg.rows).state.store := by
  refine ⟨by simp [runMain, hcols], mainLoop_attempted acq key reg.rows st,
    mainLoop_failures_mem acq key reg.rows st, ?_⟩
  intro pre post hsplit
  rw [hsplit, mainLoop_append_state]
  exact mainLoop_extends acq key post (mainLoop acq key st pre).state

/-- Witness for `C2_failure_isolation`: a two-sensor registry whose first
sensor fails acquisition and whose second succeeds with empty batches. -/
theorem C2_failure_isolation_witness :
    runMain
        (fun s => if s.street = codes "bad" then none else some ([], []))
        (some (codes "k")) true
        ⟨requiredCols,
          [⟨[], [], codes "vienna", codes "bad", [], []⟩,
           ⟨[], [], codes "vienna", codes "good", [], []⟩]⟩
        ⟨emptyStore, []⟩ =
        .completed 0
          (mainLoop (fun s => if s.street = codes "bad" then none else some ([], []))
            (codes "k") ⟨emptyStore, []⟩
            [⟨[], [], codes "vienna", codes "bad", [], []⟩,
             ⟨[], [], codes "vienna", codes "good", [], []⟩]) ∧
      (mainLoop (fun s => if s.street = codes "bad" then none else some ([], []))
          (codes "k") ⟨emptyStore, []⟩
          [⟨[], [], codes "vienna", codes "bad", [], []⟩,
           ⟨[], [], codes "vienna", codes "good", [], []⟩]).attempted =
        [⟨[], [], codes "vienna", codes "bad", [], []⟩,
         ⟨[], [], codes "vienna", codes "good", [], []⟩] ∧
      (∀ e ∈ (mainLoop (fun s => if s.street = codes "bad" then none else some ([], []))
          (codes "k") ⟨emptyStore, []⟩
          [⟨[], [], codes "vienna", codes "bad", [], []⟩,
           ⟨[], [], codes "vienna", codes "good", [], []⟩]).failures,
        ∃ s ∈ [(⟨[], [], codes "vienna", codes "bad", [], []⟩ : SensorRow),
               ⟨[], [], codes "vienna", codes "good", [], []⟩],
          e = (s.city, s.street)) ∧
      ∀ pre post,
        [(⟨[], [], codes "vienna", codes "bad", [], []⟩ : SensorRow),
         ⟨[], [], codes "vienna", codes "good", [], []⟩] = pre ++ post →
        storeExtends
          (mainLoop (fun s => if s.street = codes "bad" then none else some ([], []))
            (codes "k") ⟨emptyStore, []⟩ pre).state.store
          (mainLoop (fun s => if s.street = codes "bad" then none else some ([], []))
            (codes "k") ⟨emptyStore, []⟩
            [⟨[], [], codes "vienna", codes "bad", [], []⟩,
             ⟨[], [], codes "vienna", codes "good", [], []⟩]).state.store :=
  C2_failure_isolation
    (fun s => if s.street = codes "bad" then none else some ([], []))
    (codes "k")
    ⟨requiredCols,
      [⟨[], [], codes "vienna", codes "bad", [], []⟩,
       ⟨[], [], codes "vienna", codes "good", [], []⟩]⟩
    ⟨emptyStore, []⟩ (by decide)

/-- **C7.**  A registry header lacking one of the six required columns makes
the run abort fatally with exit code 1 before any sensor is processed: the
outcome is the pre-loop fatal one, its message carries the missing column's
name, and the outcome does not depend on the acquisition behaviour or the
prior store state at all (no sensor processing takes place). -/
theorem C7_missing_column_fatal (acq : AcqOracle) (key : List Nat)
    (reg : Registry) (st : PipeState) (col : List Nat)
    (hreq : col ∈ requiredCols) (habs : reg.header.contains col = false) :
    runMain acq (some key) true reg st =
        .fatal 1 (.missingColumns (missingCols reg.header)) ∧
      col ∈ missingCols reg.header ∧
      ∀ (acq2 : AcqOracle) (st2 : PipeState),
        runMain acq2 (some key) true reg st2 =
          runMain acq (some key) true reg st := by
  have hmem : col ∈ missingCols reg.header :=
    List.mem_filter.mpr ⟨hreq, by simp only [Bool.not_eq_true']; exact habs⟩
  have hne : missingCols reg.header ≠ [] := by
    intro h0
    rw [h0] at hmem
    exact List.not_mem_nil _ hmem
  refine ⟨by simp [runMain, hne], hmem, ?_⟩
  intro acq2 st2
  simp [runMain, hne]

/-- Witness for `C7_missing_column_fatal`: a header with every required column
except `latitude`. -/
theorem C7_missing_column_fatal_witness :
    runMain (fun _ => none) (some (codes "k")) true
        ⟨[codes "AQICN_URL", codes "country", codes "city", codes "street",
          codes "longitude"], []⟩ ⟨emptyStore, []⟩ =
        .fatal 1 (.missingColumns (missingCols
          [codes "AQICN_URL", codes "country", codes "city", codes "street",
           codes "longitude"])) ∧
      codes "latitude" ∈ missingCols
        [codes "AQICN_URL", codes "country", codes "city", codes "street",
         codes "longitude"] ∧
      ∀ (acq2 : AcqOracle) (st2 : PipeState),
        runMain acq2 (some (codes "k")) true
            ⟨[codes "AQICN_URL", codes "country", codes "city", codes "street",
              codes "longitude"], []⟩ st2 =
          runMain (fun _ => none) (some (codes "k")) true
            ⟨[codes "AQICN_URL", codes "country", codes "city", codes "street",
              codes "longitude"], []⟩ ⟨emptyStore, []⟩ :=
  C7_missing_column_fatal (fun _ => none) (codes "k")
    ⟨[codes "AQICN_URL", codes "country", codes "city", codes "street",
      codes "longitude"], []⟩ ⟨emptyStore, []⟩ (codes "latitude")
    (by decide) (by decide)

/-- **C8 counterexample.**  A registry row whose fields are all empty strings
(the shape `fillna("")` produces for missing cells) is not rejected at load
time: with a valid header the run attempts it like any other row (it reaches
`process_sensor`, which creates the suffix-less collection `air_quality_`),
and the run completes with exit code 0. -/
theorem C8_counterexample :
    (runMain (fun _ => some ([], [])) (some (codes "k")) true
          ⟨requiredCols, [⟨[], [], [], [], [], []⟩]⟩
          ⟨emptyStore, []⟩).attemptedRows = [⟨[], [], [], [], [], []⟩] ∧
      (runMain (fun _ => some ([], [])) (some (codes "k")) true
          ⟨requiredCols, [⟨[], [], [], [], [], []⟩]⟩
          ⟨emptyStore, []⟩).aqStored (codes "air_quality_", 1) = some [] ∧
      (runMain (fun _ => some ([], [])) (some (codes "k")) true
          ⟨requiredCols, [⟨[], [], [], [], [], []⟩]⟩
          ⟨emptyStore, []⟩).exitCode = 0 := by
  refine ⟨by decide, by decide, by decide⟩

/-- **C8 (amended).**  Registry parsing validates only the presence of the
required columns; missing cell values are filled with empty strings, and every
row of a valid-header registry — rows with empty fields included — is
processed by the loop rather than rejected at load time, the run still
completing with exit code 0. -/
theorem C8_amended_rows_not_rejected (acq : AcqOracle) (key : List Nat)
    (reg : Registry) (st : PipeState) (s : SensorRow)
    (hcols : missingCols reg.header = []) (hs : s ∈ reg.rows) :
    (runMain acq (some key) true reg st).exitCode = 0 ∧
      s ∈ (runMain acq (some key) true reg st).attemptedRows := by
  have hred : runMain acq (some key) true reg st =
      .completed 0 (mainLoop acq key st reg.rows) := by
    simp [runMain, hcols]
  rw [hred]
  refine ⟨rfl, ?_⟩
  show s ∈ (mainLoop acq key st reg.rows).attempted
  rw [mainLoop_attempted]
  exact hs

/-- Witness for `C8_amended_rows_not_rejected` at an all-empty registry row. -/
theorem C8_amended_rows_not_rejected_witness :
    (runMain (fun _ => some ([], [])) (some (codes "k")) true
          ⟨requiredCols, [⟨[], [], [], [], [], []⟩]⟩
          ⟨emptyStore, []⟩).exitCode = 0 ∧
      (⟨[], [], [], [], [], []⟩ : SensorRow) ∈
        (runMain (fun _ => some ([], [])) (some (codes "k")) true
          ⟨requiredCols, [⟨[], [], [], [], [], []⟩]⟩
          ⟨emptyStore, []⟩).attemptedRows :=
  C8_amended_rows_not_rejected (fun _ => some ([], [])) (codes "k")
    ⟨requiredCols, [⟨[], [], [], [], [], []⟩]⟩ ⟨emptyStore, []⟩
    ⟨[], [], [], [], [], []⟩ (by decide) (by decide)

lemma filter_name_eq_nil {st : SecretStore} {n : List Nat}
    (h : ∀ r ∈ st, r.1 ≠ n) : st.filter (fun r => r.1 = n) = [] := by
  induction st with
  | nil => rfl
  | cons a t ih =>
    have ha : decide (a.1 = n) = false := decide_eq_false (h a (by simp))
    simp only [List.filter_cons, ha, Bool.false_eq_true, if_false]
    exact ih (fun r hr => h r (by simp [hr]))

lemma deleteSecret_no_name {n : List Nat} :
    ∀ {st : SecretStore}, (st.map Prod.fst).Nodup →
      ∀ r ∈ deleteSecret st n, r.1 ≠ n := by
  intro st
  induction st with
  | nil => intro _ r hr; simp [deleteSecret] at hr
  | cons a t ih =>
    intro hnd r hr
    simp only [List.map_cons, List.nodup_cons] at hnd
    unfold deleteSecret at hr
    rw [List.eraseP_cons] at hr
    by_cases ha : a.1 = n
    · rw [decide_eq_true ha, cond_true] at hr
      intro he
      exact hnd.1 (List.mem_map.mpr ⟨r, hr, by rw [he, ha]⟩)
    · rw [decide_eq_false ha, cond_false] at hr
      rcases List.mem_cons.mp hr with rfl | hr'
      · exact ha
      · exact ih hnd.2 r hr'

lemma getSecret_none_no_name {st : SecretStore} {n : List Nat}
    (h : getSecret st n = none) : ∀ r ∈ st, r.1 ≠ n := by
  intro r hr
  unfold getSecret at h
  have hf : st.find? (fun r => r.1 = n) = none := by
    cases hf : st.find? (fun r => r.1 = n) with
    | none => rfl
    | some x => rw [hf] at h; exact Option.noConfusion h
  have := List.find?_eq_none.mp hf r hr
  simpa using this

/-- After one fault-free `save_secret`, the records named `n` are exactly the
single new record, and names stay pairwise distinct. -/
lemma saveSecret_ok_spec {st : SecretStore} {n v : List Nat}
    (hnd : (st.map Prod.fst).Nodup) :
    (saveSecret .ok st n v).filter (fun r => r.1 = n) = [(n, v)] ∧
      ((saveSecret .ok st n v).map Prod.fst).Nodup := by
  have hsingle : List.filter (fun r => decide (r.1 = n)) [(n, v)] = [(n, v)] := by
    simp
  have happend : ∀ (base : SecretStore), (∀ r ∈ base, r.1 ≠ n) →
      (base.map Prod.fst).Nodup →
      (createSecret base n v).filter (fun r => r.1 = n) = [(n, v)] ∧
        ((createSecret base n v).map Prod.fst).Nodup := by
    intro base hno hbnd
    constructor
    · unfold createSecret
      rw [List.filter_append, filter_name_eq_nil hno, hsingle, List.nil_append]
    · unfold createSecret
      rw [List.map_append]
      refine List.Nodup.append hbnd (by simp) ?_
      intro x hx hx'
      simp only [List.map_cons, List.map_nil, List.mem_singleton] at hx'
      obtain ⟨r, hr, hrx⟩ := List.mem_map.mp hx
      exact hno r hr (by rw [hrx, hx'])
  unfold saveSecret
  cases hg : getSecret st n with
  | none => exact happend st (getSecret_none_no_name hg) hnd
  | some val =>
    refine happend (deleteSecret st n) (deleteSecret_no_name hnd) ?_
    have hsub : List.Sublist (deleteSecret st n) st := List.eraseP_sublist st
    exact hnd.sublist (hsub.map Prod.fst)

/-- **C6.**  `save_secret` first attempts to read an existing secret by name,
deletes it if found, swallows any error raised during the lookup/delete block
(treating it as the secret not existing), then unconditionally creates a new
secret with the given value: whatever the fault behaviour, the call always
appends the new record, and upserting the same name twice without faults
leaves exactly one record under that name, holding the latest value. -/
theorem C6_upsert_replace (st : SecretStore) (n v1 v2 : List Nat)
    (hnd : (st.map Prod.fst).Nodup) :
    (saveSecret .ok (saveSecret .ok st n v1) n v2).filter
        (fun r => r.1 = n) = [(n, v2)] ∧
      ∀ (fault : LookupFault) (st' : SecretStore) (v : List Nat),
        ∃ pre, saveSecret fault st' n v = pre ++ [(n, v)] := by
  refine ⟨(saveSecret_ok_spec (saveSecret_ok_spec hnd).2).1, ?_⟩
  intro fault st' v
  cases fault with
  | raises => exact ⟨st', rfl⟩
  | ok =>
    unfold saveSecret
    cases getSecret st' n with
    | none => exact ⟨st', rfl⟩
    | some _ => exact ⟨deleteSecret st' n, rfl⟩

/-- Witness for `C6_upsert_replace`: a store holding one unrelated record. -/
theorem C6_upsert_replace_witness :
    (saveSecret .ok
          (saveSecret .ok [(codes "OTHER", codes "o")]
            (codes "AQICN_API_KEY") (codes "v1"))
          (codes "AQICN_API_KEY") (codes "v2")).filter
        (fun r => r.1 = codes "AQICN_API_KEY") =
      [(codes "AQICN_API_KEY", codes "v2")] ∧
      ∀ (fault : LookupFault) (st' : SecretStore) (v : List Nat),
        ∃ pre, saveSecret fault st' (codes "AQICN_API_KEY") v =
          pre ++ [(codes "AQICN_API_KEY", v)] :=
  C6_upsert_replace [(codes "OTHER", codes "o")] (codes "AQICN_API_KEY")
    (codes "v1") (codes "v2") (by decide)

end Mlfs
